import Mathlib

/-! Shallow embedding of `multifit_nlinear/subspace2D.c` (the 2D-subspace
trust-region subproblem solver), together with theorems checking the module
specification against the embedding.  Machine floating point is modelled by
exact arithmetic in a linear ordered field; the external collaborators
(the quartic root finder `gsl_poly_complex_solve` and the Householder
apply-Q primitive `gsl_linalg_QR_Qvec`) are taken as opaque parameters of
the step function, and the external pivoted 2x2 dense solve
(`gsl_linalg_QRPT_decomp` followed by `gsl_linalg_QRPT_solve`) is modelled
by the exact solution of the linear system it solves. -/

/-- GSL status code `GSL_SUCCESS = 0`; GSL error codes are nonzero. -/
def GSL_SUCCESS : Int := 0

/-- Embedding of `subspace2D_state_t` as populated by `subspace2D_preloop`
(subspace2D.c lines 110-139).  The 2-vector `subg` and the symmetric 2x2
matrix `subB` are stored entrywise: the code only ever reads entries
`(0,0)`, `(1,0)`, `(1,1)` of `subB` (lower triangle, `dsyrk`/`dsymv` with
`CblasLower`) and entries `0`, `1` of `subg`.  The Householder-packed basis
`W` and scalar factors `tau` are opaque data handed to the apply-Q
primitive.  The scratch buffers `workp`, `workn` and the Jacobian copy `J`,
which `subspace2D_step` never reads, are omitted; `perm` is the
`gsl_permutation` scratch object that `subspace2D_solution` overwrites. -/
structure Subspace2DState (α : Type) where
  p : Nat
  dx_gn : List α
  dx_sd : List α
  norm_gn : α
  norm_sd : α
  W : List (List α)
  tau : List α
  rank : Nat
  subg0 : α
  subg1 : α
  subB00 : α
  subB10 : α
  subB11 : α
  trB : α
  detB : α
  normg : α
  term0 : α
  term1 : α
  perm : List Nat
  deriving DecidableEq

/-- Result of the external quartic root finder `gsl_poly_complex_solve`:
on success, four complex roots `z[0..3]` given as (real, imaginary) pairs;
on failure, a nonzero GSL error code. -/
inductive PolyResult (α : Type) where
  | success : (Fin 4 → α × α) → PolyResult α
  | failure : Int → PolyResult α

/-- `subspace2D_solution` (subspace2D.c lines 565-592): solve
`(subB + lambda*I) x = -subg`.  The source builds `C = subB + lambda*I` and
calls the external pivoted dense solver `gsl_linalg_QRPT_decomp` /
`gsl_linalg_QRPT_solve`, then scales by -1; in exact arithmetic that solver
returns the unique solution of `C y = subg` when `C` is invertible, which
is modelled here by Cramer's rule. -/
def subspace2D_solutionX {α : Type} [LinearOrderedField α]
    (st : Subspace2DState α) (lam : α) : α × α :=
  let C00 := st.subB00 + lam
  let C10 := st.subB10
  let C01 := st.subB10
  let C11 := st.subB11 + lam
  let d := C00 * C11 - C01 * C10
  let y0 := (C11 * st.subg0 - C01 * st.subg1) / d
  let y1 := (C00 * st.subg1 - C10 * st.subg0) / d
  (-y0, -y1)

/-- The fresh contents written into `state->perm` by `gsl_linalg_QRPT_decomp`
inside `subspace2D_solution`: column pivoting on `C = subB + lambda*I`
brings the column of larger norm first. -/
def subspace2D_solutionPerm {α : Type} [LinearOrderedField α]
    (st : Subspace2DState α) (lam : α) : List Nat :=
  let C00 := st.subB00 + lam
  let C10 := st.subB10
  let C01 := st.subB10
  let C11 := st.subB11 + lam
  if C01 * C01 + C11 * C11 > C00 * C00 + C10 * C10 then [1, 0] else [0, 1]

/-- `subspace2D_objective` (subspace2D.c lines 595-612): evaluate
`f(x) = g^T x + 1/2 x^T B x` on the reduced 2-vector `x`, mirroring
`u = subg . x`, `y = 0.5 * subB * x` (`dsymv` on the lower triangle) and
`v = x . y`. -/
def subspace2D_objective {α : Type} [LinearOrderedField α]
    (st : Subspace2DState α) (x : α × α) : α :=
  let u := st.subg0 * x.1 + st.subg1 * x.2
  let y0 := (1 / 2 : α) * (st.subB00 * x.1 + st.subB10 * x.2)
  let y1 := (1 / 2 : α) * (st.subB10 * x.1 + st.subB11 * x.2)
  u + (x.1 * y0 + x.2 * y1)

/-- The coefficient array `a[0..4]` built by `subspace2D_step`
(subspace2D.c lines 478-487) and handed to `gsl_poly_complex_solve`;
`a[i]` is the coefficient of `lambda^i`, with `delta_sq = delta * delta`
and `u = normg / delta`. -/
def subspace2D_quartic_coeffs {α : Type} [LinearOrderedField α]
    (st : Subspace2DState α) (delta : α) : Fin 5 → α :=
  let delta_sq := delta * delta
  let u := st.normg / delta
  ![st.detB * st.detB - st.term0 / delta_sq,
    2 * st.detB * st.trB - 2 * st.term1 / delta_sq,
    st.trB * st.trB + 2 * st.detB - u * u,
    2 * st.trB,
    1]

/-- The quartic coefficients exactly as the specification words them
(index `i` is the coefficient of `lambda^i`): leading coefficient 1,
then `2 trB`, `trB^2 + 2 detB - normg^2/delta^2`,
`2 detB trB - 2 term1/delta^2`, and `detB^2 - term0/delta^2`. -/
def spec_quartic_coeffs {α : Type} [LinearOrderedField α]
    (st : Subspace2DState α) (delta : α) : Fin 5 → α :=
  ![st.detB ^ 2 - st.term0 / delta ^ 2,
    2 * st.detB * st.trB - 2 * st.term1 / delta ^ 2,
    st.trB ^ 2 + 2 * st.detB - st.normg ^ 2 / delta ^ 2,
    2 * st.trB,
    1]

/-- One iteration of the root-selection loop of `subspace2D_step`
(subspace2D.c lines 504-524), mirroring
`if (mini < 0 || cost < min) { mini = i; min = cost; }` guarded by the
reality test on the root. -/
def selectF {α : Type} [LinearOrderedField α] {ι : Type}
    (isReal : ι → Bool) (cost : ι → α) (acc : Option ι × α) (i : ι) :
    Option ι × α :=
  if isReal i then
    if acc.1.isNone ∨ cost i < acc.2 then (some i, cost i) else acc
  else acc

/-- The root-selection loop of `subspace2D_step` over the four quartic
roots: a root is treated as real when `fabs(z[2*i+1]) < GSL_DBL_EPSILON`
(here `eps`), its candidate point is `subspace2D_solution(z[2*i])` and its
cost is `subspace2D_objective` there; the loop starts from
`min = 0.0, mini = -1`. -/
def subspace2D_select {α : Type} [LinearOrderedField α]
    (st : Subspace2DState α) (eps : α) (z : Fin 4 → α × α) :
    Option (Fin 4) × α :=
  (List.finRange 4).foldl
    (selectF (fun i => decide (|(z i).2| < eps))
      (fun i => subspace2D_objective st (subspace2D_solutionX st (z i).1)))
    (none, 0)

/-- `gsl_vector_set_zero(dx)` followed by setting entries 0 and 1
(subspace2D.c lines 536-538): the winning reduced 2-vector embedded into a
length-`p` vector. -/
def subspace2D_embed {α : Type} [LinearOrderedField α]
    (p : Nat) (x : α × α) : List α :=
  x.1 :: x.2 :: List.replicate (p - 2) (0 : α)

/-- The full-rank branch of `subspace2D_step` after a successful quartic
solve (subspace2D.c lines 490-541): select the best real root; if none was
found only a diagnostic is emitted and `dx` is left untouched; otherwise
recompute the winning solution (overwriting `state->perm`) and map it back
through the basis with `gsl_linalg_QR_Qvec`. -/
def subspace2D_branch3succ {α : Type} [LinearOrderedField α]
    (applyQ : List (List α) → List α → List α → List α)
    (eps : α) (st : Subspace2DState α) (dx : List α) (z : Fin 4 → α × α) :
    Int × List α × Subspace2DState α :=
  match (subspace2D_select st eps z).1 with
  | none => (GSL_SUCCESS, dx, st)
  | some i =>
      (GSL_SUCCESS,
       applyQ st.W st.tau (subspace2D_embed st.p (subspace2D_solutionX st (z i).1)),
       { st with perm := subspace2D_solutionPerm st (z i).1 })

/-- `subspace2D_step` (subspace2D.c lines 453-549).  `polySolve` is the
external quartic root finder, `applyQ` the external Householder apply-Q
primitive, `eps` the machine epsilon constant `GSL_DBL_EPSILON`, and `dx`
the contents of the output vector before the call (returned unchanged on
the paths that never write it).  Returns the GSL status, the output vector
and the state after the call. -/
def subspace2D_step {α : Type} [LinearOrderedField α]
    (polySolve : (Fin 5 → α) → PolyResult α)
    (applyQ : List (List α) → List α → List α → List α)
    (eps : α) (st : Subspace2DState α) (delta : α) (dx : List α) :
    Int × List α × Subspace2DState α :=
  if st.norm_gn ≤ delta then
    (GSL_SUCCESS, st.dx_gn, st)
  else if st.rank < 2 then
    (GSL_SUCCESS, st.dx_sd.map (fun v => v * (delta / st.norm_sd)), st)
  else
    match polySolve (subspace2D_quartic_coeffs st delta) with
    | PolyResult.failure code => (code, dx, st)
    | PolyResult.success z => subspace2D_branch3succ applyQ eps st dx z

/-- Guarded variant of `subspace2D_step` making the division
`delta / state->norm_sd` of the rank-deficient branch (subspace2D.c line
473) fallible: it returns `none` exactly when that branch would divide by
zero, and otherwise the unguarded step result. -/
def subspace2D_step_checked {α : Type} [LinearOrderedField α]
    (polySolve : (Fin 5 → α) → PolyResult α)
    (applyQ : List (List α) → List α → List α → List α)
    (eps : α) (st : Subspace2DState α) (delta : α) (dx : List α) :
    Option (Int × List α × Subspace2DState α) :=
  if ¬ st.norm_gn ≤ delta ∧ st.rank < 2 ∧ st.norm_sd = 0 then none
  else some (subspace2D_step polySolve applyQ eps st delta dx)

/-- The steepest-descent computation of `subspace2D_preloop`
(subspace2D.c lines 355-374): given the already computed norms
`norm_g = ||g||` and `norm_Jg = ||J g||` and the gradient vector `g`,
compute `u = norm_g / norm_Jg`, `alpha = u * u` and `dx_sd = -alpha * g`.
The source performs the division with no guard on `norm_Jg` and the
enclosing `subspace2D_preloop` reports `GSL_SUCCESS`; the returned triple
is (status, alpha, dx_sd). -/
def subspace2D_preloop_sd {α : Type} [LinearOrderedField α]
    (norm_g norm_Jg : α) (g : List α) : Int × α × List α :=
  let u := norm_g / norm_Jg
  let alpha := u * u
  (GSL_SUCCESS, alpha, g.map (fun gi => -alpha * gi))

/-- The scalar precomputations of `subspace2D_preloop` in the full-rank
case (subspace2D.c lines 429-439), from the entries of `subB` and `subg`:
returns `(trB, detB, term0, term1)`. -/
def subspace2D_preloop_scalars {α : Type} [LinearOrderedField α]
    (B00 B10 B11 g0 g1 : α) : α × α × α × α :=
  (B00 + B11,
   B00 * B11 - B10 * B10,
   (B10 * B10 + B11 * B11) * g0 * g0 -
     2 * B10 * (B00 + B11) * g0 * g1 +
     (B00 * B00 + B10 * B10) * g1 * g1,
   B11 * g0 * g0 + g1 * (B00 * g1 - 2 * B10 * g0))

/-- The classical adjugate of the symmetric 2x2 matrix
`[[B00,B10],[B10,B11]]`, as in the specification:
`adj(B) = [[B11,-B10],[-B10,B00]]`. -/
def adj2 {α : Type} [LinearOrderedField α] (B00 B10 B11 : α) :
    Matrix (Fin 2) (Fin 2) α :=
  Matrix.of ![![B11, -B10], ![-B10, B00]]

/-- The 2-vector `[g0, g1]` as a function on `Fin 2`. -/
def vec2 {α : Type} (g0 g1 : α) : Fin 2 → α := ![g0, g1]

/-- Sum of squares of the entries of a vector. -/
def sumsq {α : Type} [LinearOrderedField α] (v : List α) : α :=
  (v.map (fun x => x * x)).sum

/-- Exact Euclidean norm of a real vector (the quantity `gsl_blas_dnrm2`
computes in machine arithmetic). -/
noncomputable def enorm (v : List ℝ) : ℝ := Real.sqrt (sumsq v)

/-- Branch 1 reduction: when `norm_gn <= delta` the step is `dx_gn`. -/
lemma subspace2D_step_eq_gn {α : Type} [LinearOrderedField α]
    (ps : (Fin 5 → α) → PolyResult α)
    (aq : List (List α) → List α → List α → List α)
    (eps : α) (st : Subspace2DState α) (delta : α) (dx : List α)
    (h1 : st.norm_gn ≤ delta) :
    subspace2D_step ps aq eps st delta dx = (GSL_SUCCESS, st.dx_gn, st) := by
  unfold subspace2D_step
  rw [if_pos h1]

/-- Branch 2 reduction: rank-deficient fallback. -/
lemma subspace2D_step_eq_sd {α : Type} [LinearOrderedField α]
    (ps : (Fin 5 → α) → PolyResult α)
    (aq : List (List α) → List α → List α → List α)
    (eps : α) (st : Subspace2DState α) (delta : α) (dx : List α)
    (h1 : ¬ st.norm_gn ≤ delta) (h2 : st.rank < 2) :
    subspace2D_step ps aq eps st delta dx =
      (GSL_SUCCESS, st.dx_sd.map (fun v => v * (delta / st.norm_sd)), st) := by
  unfold subspace2D_step
  rw [if_neg h1, if_pos h2]

/-- Branch 3 reduction, root-finder failure case. -/
lemma subspace2D_step_eq_fail {α : Type} [LinearOrderedField α]
    (ps : (Fin 5 → α) → PolyResult α)
    (aq : List (List α) → List α → List α → List α)
    (eps : α) (st : Subspace2DState α) (delta : α) (dx : List α) (code : Int)
    (h1 : ¬ st.norm_gn ≤ delta) (h2 : ¬ st.rank < 2)
    (hps : ps (subspace2D_quartic_coeffs st delta) = PolyResult.failure code) :
    subspace2D_step ps aq eps st delta dx = (code, dx, st) := by
  unfold subspace2D_step
  rw [if_neg h1, if_neg h2, hps]

/-- Branch 3 reduction, root-finder success case. -/
lemma subspace2D_step_eq_succ {α : Type} [LinearOrderedField α]
    (ps : (Fin 5 → α) → PolyResult α)
    (aq : List (List α) → List α → List α → List α)
    (eps : α) (st : Subspace2DState α) (delta : α) (dx : List α)
    (z : Fin 4 → α × α)
    (h1 : ¬ st.norm_gn ≤ delta) (h2 : ¬ st.rank < 2)
    (hps : ps (subspace2D_quartic_coeffs st delta) = PolyResult.success z) :
    subspace2D_step ps aq eps st delta dx =
      subspace2D_branch3succ aq eps st dx z := by
  unfold subspace2D_step
  rw [if_neg h1, if_neg h2, hps]

/-- No-real-root reduction of the success branch. -/
lemma subspace2D_branch3succ_eq_none {α : Type} [LinearOrderedField α]
    (aq : List (List α) → List α → List α → List α)
    (eps : α) (st : Subspace2DState α) (dx : List α) (z : Fin 4 → α × α)
    (hsel : (subspace2D_select st eps z).1 = none) :
    subspace2D_branch3succ aq eps st dx z = (GSL_SUCCESS, dx, st) := by
  unfold subspace2D_branch3succ
  rw [hsel]

/-- Selected-root reduction of the success branch. -/
lemma subspace2D_branch3succ_eq_some {α : Type} [LinearOrderedField α]
    (aq : List (List α) → List α → List α → List α)
    (eps : α) (st : Subspace2DState α) (dx : List α) (z : Fin 4 → α × α)
    (i : Fin 4)
    (hsel : (subspace2D_select st eps z).1 = some i) :
    subspace2D_branch3succ aq eps st dx z =
      (GSL_SUCCESS,
       aq st.W st.tau (subspace2D_embed st.p (subspace2D_solutionX st (z i).1)),
       { st with perm := subspace2D_solutionPerm st (z i).1 }) := by
  unfold subspace2D_branch3succ
  rw [hsel]

/-- Invariant carried by the selection loop accumulator: either nothing was
selected yet, or the selected index is a real root and the running minimum
is its cost. -/
def selectGood {α : Type} {ι : Type} (isReal : ι → Bool) (cost : ι → α)
    (acc : Option ι × α) : Prop :=
  acc.1 = none ∨ ∃ i, acc.1 = some i ∧ isReal i = true ∧ acc.2 = cost i

lemma selectF_preserves_good {α : Type} [LinearOrderedField α] {ι : Type}
    (isReal : ι → Bool) (cost : ι → α) (acc : Option ι × α) (i : ι)
    (h : selectGood isReal cost acc) :
    selectGood isReal cost (selectF isReal cost acc i) := by
  unfold selectF
  by_cases hp : isReal i = true
  · rw [if_pos hp]
    by_cases hc : acc.1.isNone = true ∨ cost i < acc.2
    · rw [if_pos hc]
      exact Or.inr ⟨i, rfl, hp, rfl⟩
    · rw [if_neg hc]
      exact h
  · rw [if_neg hp]
    exact h

lemma selectF_foldl_good {α : Type} [LinearOrderedField α] {ι : Type}
    (isReal : ι → Bool) (cost : ι → α) :
    ∀ (l : List ι) (acc : Option ι × α), selectGood isReal cost acc →
      selectGood isReal cost (l.foldl (selectF isReal cost) acc) := by
  intro l
  induction l with
  | nil => intro acc h; exact h
  | cons i l ih =>
      intro acc h
      exact ih _ (selectF_preserves_good isReal cost acc i h)

lemma selectF_foldl_mono {α : Type} [LinearOrderedField α] {ι : Type}
    (isReal : ι → Bool) (cost : ι → α) :
    ∀ (l : List ι) (acc : Option ι × α), acc.1.isSome = true →
      (l.foldl (selectF isReal cost) acc).1.isSome = true ∧
      (l.foldl (selectF isReal cost) acc).2 ≤ acc.2 := by
  intro l
  induction l with
  | nil => intro acc h; exact ⟨h, le_refl _⟩
  | cons i l ih =>
      intro acc h
      obtain ⟨v, hv⟩ := Option.isSome_iff_exists.mp h
      have hstep : (selectF isReal cost acc i).1.isSome = true ∧
          (selectF isReal cost acc i).2 ≤ acc.2 := by
        unfold selectF
        by_cases hp : isReal i = true
        · rw [if_pos hp]
          have hnn : acc.1.isNone = false := by
            rw [hv]; rfl
          by_cases hc : acc.1.isNone = true ∨ cost i < acc.2
          · rw [if_pos hc]
            rcases hc with hc | hc
            · rw [hnn] at hc; cases hc
            · exact ⟨rfl, le_of_lt hc⟩
          · rw [if_neg hc]
            exact ⟨h, le_refl _⟩
        · rw [if_neg hp]
          exact ⟨h, le_refl _⟩
      have hrest := ih (selectF isReal cost acc i) hstep.1
      exact ⟨hrest.1, le_trans hrest.2 hstep.2⟩

lemma selectF_foldl_le {α : Type} [LinearOrderedField α] {ι : Type}
    (isReal : ι → Bool) (cost : ι → α) :
    ∀ (l : List ι) (acc : Option ι × α) (j : ι), j ∈ l → isReal j = true →
      (l.foldl (selectF isReal cost) acc).2 ≤ cost j := by
  intro l
  induction l with
  | nil => intro acc j hj; cases hj
  | cons i l ih =>
      intro acc j hj hp
      rcases List.mem_cons.mp hj with hji | hj'
      · subst hji
        have hstep : (selectF isReal cost acc j).1.isSome = true ∧
            (selectF isReal cost acc j).2 ≤ cost j := by
          unfold selectF
          rw [if_pos hp]
          by_cases hc : acc.1.isNone = true ∨ cost j < acc.2
          · rw [if_pos hc]
            exact ⟨rfl, le_refl _⟩
          · rw [if_neg hc]
            push_neg at hc
            have hsome : acc.1.isSome = true := by
              cases hacc : acc.1 with
              | none => exact absurd (by rw [hacc]; rfl) hc.1
              | some v => rfl
            exact ⟨hsome, hc.2⟩
        have hrest := selectF_foldl_mono isReal cost l _ hstep.1
        exact le_trans hrest.2 hstep.2
      · exact ih (selectF isReal cost acc i) j hj' hp

lemma selectF_foldl_none {α : Type} [LinearOrderedField α] {ι : Type}
    (isReal : ι → Bool) (cost : ι → α) :
    ∀ (l : List ι) (acc : Option ι × α), (∀ j ∈ l, isReal j = false) →
      l.foldl (selectF isReal cost) acc = acc := by
  intro l
  induction l with
  | nil => intro acc _; rfl
  | cons i l ih =>
      intro acc h
      have hi : isReal i = false := h i (List.mem_cons_self i l)
      have hstep : selectF isReal cost acc i = acc := by
        unfold selectF
        rw [hi]
        simp
      rw [List.foldl_cons, hstep]
      exact ih acc (fun j hj => h j (List.mem_cons_of_mem i hj))

lemma sumsq_nil {α : Type} [LinearOrderedField α] : sumsq ([] : List α) = 0 := rfl

lemma sumsq_cons {α : Type} [LinearOrderedField α] (x : α) (v : List α) :
    sumsq (x :: v) = x * x + sumsq v := by
  simp [sumsq]

lemma sumsq_nonneg {α : Type} [LinearOrderedField α] (v : List α) : 0 ≤ sumsq v := by
  induction v with
  | nil => simp [sumsq]
  | cons x v ih =>
      rw [sumsq_cons]
      exact add_nonneg (mul_self_nonneg x) ih

lemma sumsq_map_scale {α : Type} [LinearOrderedField α] (v : List α) (c : α) :
    sumsq (v.map (fun x => x * c)) = sumsq v * (c * c) := by
  induction v with
  | nil => simp [sumsq]
  | cons x v ih =>
      rw [List.map_cons, sumsq_cons, sumsq_cons, ih]
      ring

/-- C1: for every populated state and radius `delta > 0` with
`norm_gn <= delta`, `subspace2D_step` returns `GSL_SUCCESS` and sets
`dx` equal to `dx_gn` exactly (no scaling, no further computation, state
untouched); consequently for the fixed state every radius at least as
large also yields exactly `dx_gn`. -/
theorem subspace2D_step_gauss_newton_feasible {α : Type} [LinearOrderedField α]
    (ps : (Fin 5 → α) → PolyResult α)
    (aq : List (List α) → List α → List α → List α)
    (eps : α) (st : Subspace2DState α) (delta : α) (dx : List α)
    (hd : 0 < delta) (h1 : st.norm_gn ≤ delta) :
    subspace2D_step ps aq eps st delta dx = (GSL_SUCCESS, st.dx_gn, st) ∧
    ∀ delta' : α, delta ≤ delta' →
      subspace2D_step ps aq eps st delta' dx = (GSL_SUCCESS, st.dx_gn, st) := by
  refine ⟨subspace2D_step_eq_gn ps aq eps st delta dx h1, ?_⟩
  intro delta' hdd
  exact subspace2D_step_eq_gn ps aq eps st delta' dx (le_trans h1 hdd)

/-- C2: with `norm_gn > delta` and `rank < 2`, `subspace2D_step` sets
`dx = dx_sd * (delta / norm_sd)`; in exact arithmetic, since
`norm_sd = ||dx_sd||` (and the step is nonzero), the returned step has
Euclidean norm exactly `delta`. -/
theorem subspace2D_step_rank_deficient_boundary
    (ps : (Fin 5 → ℝ) → PolyResult ℝ)
    (aq : List (List ℝ) → List ℝ → List ℝ → List ℝ)
    (eps : ℝ) (st : Subspace2DState ℝ) (delta : ℝ) (dx : List ℝ)
    (hd : 0 < delta) (h1 : delta < st.norm_gn) (h2 : st.rank < 2)
    (hn : st.norm_sd = enorm st.dx_sd) (hpos : 0 < st.norm_sd) :
    subspace2D_step ps aq eps st delta dx =
      (GSL_SUCCESS, st.dx_sd.map (fun v => v * (delta / st.norm_sd)), st) ∧
    enorm ((subspace2D_step ps aq eps st delta dx).2.1) = delta := by
  have hstep := subspace2D_step_eq_sd ps aq eps st delta dx (not_le.mpr h1) h2
  refine ⟨hstep, ?_⟩
  rw [hstep]
  have hsq : sumsq st.dx_sd = st.norm_sd ^ 2 := by
    rw [hn]
    unfold enorm
    rw [Real.sq_sqrt (sumsq_nonneg st.dx_sd)]
  have h0 : st.norm_sd ≠ 0 := ne_of_gt hpos
  show enorm (st.dx_sd.map (fun v => v * (delta / st.norm_sd))) = delta
  unfold enorm
  rw [sumsq_map_scale, hsq]
  have hc : st.norm_sd ^ 2 * (delta / st.norm_sd * (delta / st.norm_sd)) = delta ^ 2 := by
    field_simp
    ring
  rw [hc]
  exact Real.sqrt_sq (le_of_lt hd)

/-- C3: the coefficient array handed to the quartic root finder in the
full 2-D boundary branch is exactly the one the specification states:
leading coefficient 1, then `2 trB`, `trB^2 + 2 detB - normg^2/delta^2`,
`2 detB trB - 2 term1/delta^2` and constant `detB^2 - term0/delta^2`. -/
theorem subspace2D_quartic_coeffs_spec_eq {α : Type} [LinearOrderedField α]
    (st : Subspace2DState α) (delta : α) :
    subspace2D_quartic_coeffs st delta = spec_quartic_coeffs st delta := by
  funext i
  fin_cases i <;>
    simp [subspace2D_quartic_coeffs, spec_quartic_coeffs] <;>
    ring

/-- C5 (code bug): the degenerate case `||Jg|| = 0` is not guarded by
`subspace2D_preloop`: the steepest-descent computation performs the
division `norm_g / norm_Jg` anyway and the surrounding code reports
`GSL_SUCCESS` instead of signalling a numerical-failure condition.
Evaluated at the failing input `norm_g = 1`, `norm_Jg = 0`,
`g = [1, -1]`. -/
theorem subspace2D_preloop_sd_unguarded :
    (subspace2D_preloop_sd (1 : ℚ) 0 [1, -1]).1 = GSL_SUCCESS ∧
    subspace2D_preloop_sd (1 : ℚ) 0 [1, -1] = (GSL_SUCCESS, 0, [0, 0]) := by
  refine ⟨rfl, ?_⟩
  unfold subspace2D_preloop_sd
  norm_num

lemma adj2_transpose {α : Type} [LinearOrderedField α] (B00 B10 B11 : α) :
    (adj2 B00 B10 B11).transpose = adj2 B00 B10 B11 := by
  ext i j
  fin_cases i <;> fin_cases j <;>
    simp [adj2, Matrix.transpose_apply, Matrix.of_apply]

/-- C7: the closed-form expressions for `term0` and `term1` computed by
`subspace2D_preloop` satisfy `term0 = g^T adj(B)^T adj(B) g` and
`term1 = g^T adj(B)^T g` with `adj(B) = [[B11,-B10],[-B10,B00]]` the
classical adjugate, for every symmetric 2x2 `subB` and 2-vector `subg`. -/
theorem subspace2D_preloop_terms_adjugate {α : Type} [LinearOrderedField α]
    (B00 B10 B11 g0 g1 : α) :
    (subspace2D_preloop_scalars B00 B10 B11 g0 g1).2.2.1 =
      Matrix.dotProduct (vec2 g0 g1)
        (Matrix.mulVec ((adj2 B00 B10 B11).transpose * adj2 B00 B10 B11)
          (vec2 g0 g1)) ∧
    (subspace2D_preloop_scalars B00 B10 B11 g0 g1).2.2.2 =
      Matrix.dotProduct (vec2 g0 g1)
        (Matrix.mulVec (adj2 B00 B10 B11).transpose (vec2 g0 g1)) := by
  rw [adj2_transpose]
  constructor <;>
  · simp [subspace2D_preloop_scalars, adj2, vec2, Matrix.dotProduct,
      Matrix.mulVec, Matrix.mul_apply,
      Fin.sum_univ_two, Matrix.of_apply, Matrix.cons_val_zero,
      Matrix.cons_val_one, Matrix.head_cons]
    ring

/-- C8: when the quartic root finder fails in the full 2-D boundary
branch, `subspace2D_step` propagates the failing status to its caller and
leaves the output vector untouched. -/
theorem subspace2D_step_polysolve_failure_propagates {α : Type}
    [LinearOrderedField α]
    (ps : (Fin 5 → α) → PolyResult α)
    (aq : List (List α) → List α → List α → List α)
    (eps : α) (st : Subspace2DState α) (delta : α) (dx : List α) (code : Int)
    (h1 : delta < st.norm_gn) (h2 : st.rank = 2)
    (hps : ps (subspace2D_quartic_coeffs st delta) = PolyResult.failure code) :
    subspace2D_step ps aq eps st delta dx = (code, dx, st) :=
  subspace2D_step_eq_fail ps aq eps st delta dx code (not_le.mpr h1)
    (by omega) hps

/-- C9: the division `delta / norm_sd` of the rank-deficient branch is
well-defined under the precondition `norm_sd > 0`: the division-by-zero
error case of the guarded embedding is unreachable whenever
`norm_gn > delta`, `rank < 2` and `norm_sd > 0`. -/
theorem subspace2D_step_sd_division_safe {α : Type} [LinearOrderedField α]
    (ps : (Fin 5 → α) → PolyResult α)
    (aq : List (List α) → List α → List α → List α)
    (eps : α) (st : Subspace2DState α) (delta : α) (dx : List α)
    (h1 : delta < st.norm_gn) (h2 : st.rank < 2) (h3 : 0 < st.norm_sd) :
    subspace2D_step_checked ps aq eps st delta dx =
      some (subspace2D_step ps aq eps st delta dx) ∧
    subspace2D_step_checked ps aq eps st delta dx =
      some (GSL_SUCCESS,
        st.dx_sd.map (fun v => v * (delta / st.norm_sd)), st) := by
  have hguard : ¬ (¬ st.norm_gn ≤ delta ∧ st.rank < 2 ∧ st.norm_sd = 0) := by
    intro h
    exact h3.ne' h.2.2
  constructor
  · unfold subspace2D_step_checked
    rw [if_neg hguard]
  · unfold subspace2D_step_checked
    rw [if_neg hguard,
      subspace2D_step_eq_sd ps aq eps st delta dx (not_le.mpr h1) h2]

lemma subspace2D_select_good {α : Type} [LinearOrderedField α]
    (st : Subspace2DState α) (eps : α) (z : Fin 4 → α × α) :
    (subspace2D_select st eps z).1 = none ∨
    ∃ i, (subspace2D_select st eps z).1 = some i ∧ |(z i).2| < eps ∧
      (subspace2D_select st eps z).2 =
        subspace2D_objective st (subspace2D_solutionX st (z i).1) := by
  have h := selectF_foldl_good (fun j => decide (|(z j).2| < eps))
      (fun j => subspace2D_objective st (subspace2D_solutionX st (z j).1))
      (List.finRange 4) (none, 0) (Or.inl rfl)
  unfold subspace2D_select
  rcases h with h | ⟨i, hi, hreal, hmin⟩
  · exact Or.inl h
  · exact Or.inr ⟨i, hi, of_decide_eq_true hreal, hmin⟩

lemma subspace2D_select_le {α : Type} [LinearOrderedField α]
    (st : Subspace2DState α) (eps : α) (z : Fin 4 → α × α) (j : Fin 4)
    (hj : |(z j).2| < eps) :
    (subspace2D_select st eps z).2 ≤
      subspace2D_objective st (subspace2D_solutionX st (z j).1) := by
  unfold subspace2D_select
  exact selectF_foldl_le _ _ (List.finRange 4) (none, 0) j
    (List.mem_finRange j) (decide_eq_true hj)

/-- C4: in the full 2-D boundary branch, a root is treated as real exactly
when the absolute value of its imaginary part is below machine epsilon,
and the selected real root has reduced objective value at
`x = ReducedSolve(lambda)` no larger than at any other real root of the
same quartic; the final `dx` is the apply-Q primitive applied to the
embedding of that winning 2-vector. -/
theorem subspace2D_step_root_selection_optimal {α : Type}
    [LinearOrderedField α]
    (ps : (Fin 5 → α) → PolyResult α)
    (aq : List (List α) → List α → List α → List α)
    (eps : α) (st : Subspace2DState α) (delta : α) (dx : List α)
    (z : Fin 4 → α × α) (i : Fin 4)
    (h1 : delta < st.norm_gn) (h2 : st.rank = 2)
    (hps : ps (subspace2D_quartic_coeffs st delta) = PolyResult.success z)
    (hi : (subspace2D_select st eps z).1 = some i) :
    |(z i).2| < eps ∧
    (∀ j : Fin 4, |(z j).2| < eps →
      subspace2D_objective st (subspace2D_solutionX st (z i).1) ≤
        subspace2D_objective st (subspace2D_solutionX st (z j).1)) ∧
    subspace2D_step ps aq eps st delta dx =
      (GSL_SUCCESS,
       aq st.W st.tau
         (subspace2D_embed st.p (subspace2D_solutionX st (z i).1)),
       { st with perm := subspace2D_solutionPerm st (z i).1 }) := by
  have hgood := subspace2D_select_good st eps z
  rcases hgood with hnone | ⟨i', hi', hreal, hmin⟩
  · rw [hi] at hnone; cases hnone
  · rw [hi] at hi'
    injection hi' with hii
    subst hii
    refine ⟨hreal, ?_, ?_⟩
    · intro j hj
      have hle := subspace2D_select_le st eps z j hj
      rw [hmin] at hle
      exact hle
    · rw [subspace2D_step_eq_succ ps aq eps st delta dx z
        (not_le.mpr h1) (by omega) hps]
      exact subspace2D_branch3succ_eq_some aq eps st dx z i hi

/-- C6: in the full 2-D boundary branch, when the root finder succeeds
but none of the four roots has imaginary part within machine epsilon of
zero, `subspace2D_step` leaves the output vector untouched, leaves the
state untouched, and still returns `GSL_SUCCESS` (only a diagnostic is
printed). -/
theorem subspace2D_step_no_real_root_diagnostic {α : Type}
    [LinearOrderedField α]
    (ps : (Fin 5 → α) → PolyResult α)
    (aq : List (List α) → List α → List α → List α)
    (eps : α) (st : Subspace2DState α) (delta : α) (dx : List α)
    (z : Fin 4 → α × α)
    (h1 : delta < st.norm_gn) (h2 : st.rank = 2)
    (hps : ps (subspace2D_quartic_coeffs st delta) = PolyResult.success z)
    (hnone : ∀ j : Fin 4, ¬ |(z j).2| < eps) :
    subspace2D_step ps aq eps st delta dx = (GSL_SUCCESS, dx, st) := by
  have hsel : subspace2D_select st eps z = (none, 0) := by
    unfold subspace2D_select
    exact selectF_foldl_none _ _ (List.finRange 4) (none, 0)
      (fun j _ => decide_eq_false (hnone j))
  rw [subspace2D_step_eq_succ ps aq eps st delta dx z
    (not_le.mpr h1) (by omega) hps]
  exact subspace2D_branch3succ_eq_none aq eps st dx z (by rw [hsel])

lemma subspace2D_step_state {α : Type} [LinearOrderedField α]
    (ps : (Fin 5 → α) → PolyResult α)
    (aq : List (List α) → List α → List α → List α)
    (eps : α) (st : Subspace2DState α) (delta : α) (dx : List α) :
    (subspace2D_step ps aq eps st delta dx).2.2 =
      { st with perm := (subspace2D_step ps aq eps st delta dx).2.2.perm } := by
  by_cases h1 : st.norm_gn ≤ delta
  · rw [subspace2D_step_eq_gn ps aq eps st delta dx h1]
  · by_cases h2 : st.rank < 2
    · rw [subspace2D_step_eq_sd ps aq eps st delta dx h1 h2]
    · cases hps : ps (subspace2D_quartic_coeffs st delta) with
      | failure code =>
          rw [subspace2D_step_eq_fail ps aq eps st delta dx code h1 h2 hps]
      | success z =>
          rw [subspace2D_step_eq_succ ps aq eps st delta dx z h1 h2 hps]
          cases hsel : (subspace2D_select st eps z).1 with
          | none => rw [subspace2D_branch3succ_eq_none aq eps st dx z hsel]
          | some i => rw [subspace2D_branch3succ_eq_some aq eps st dx z i hsel]

lemma subspace2D_step_setPerm {α : Type} [LinearOrderedField α]
    (ps : (Fin 5 → α) → PolyResult α)
    (aq : List (List α) → List α → List α → List α)
    (eps : α) (st : Subspace2DState α) (delta : α) (dx : List α)
    (q : List Nat) :
    (subspace2D_step ps aq eps { st with perm := q } delta dx).1 =
      (subspace2D_step ps aq eps st delta dx).1 ∧
    (subspace2D_step ps aq eps { st with perm := q } delta dx).2.1 =
      (subspace2D_step ps aq eps st delta dx).2.1 := by
  by_cases h1 : st.norm_gn ≤ delta
  · rw [subspace2D_step_eq_gn ps aq eps st delta dx h1,
      subspace2D_step_eq_gn ps aq eps { st with perm := q } delta dx h1]
    exact ⟨rfl, rfl⟩
  · by_cases h2 : st.rank < 2
    · rw [subspace2D_step_eq_sd ps aq eps st delta dx h1 h2,
        subspace2D_step_eq_sd ps aq eps { st with perm := q } delta dx h1 h2]
      exact ⟨rfl, rfl⟩
    · cases hps : ps (subspace2D_quartic_coeffs st delta) with
      | failure code =>
          rw [subspace2D_step_eq_fail ps aq eps st delta dx code h1 h2 hps,
            subspace2D_step_eq_fail ps aq eps { st with perm := q } delta dx
              code h1 h2 hps]
          exact ⟨rfl, rfl⟩
      | success z =>
          rw [subspace2D_step_eq_succ ps aq eps st delta dx z h1 h2 hps,
            subspace2D_step_eq_succ ps aq eps { st with perm := q } delta dx
              z h1 h2 hps]
          cases hsel : (subspace2D_select st eps z).1 with
          | none =>
              rw [subspace2D_branch3succ_eq_none aq eps st dx z hsel,
                subspace2D_branch3succ_eq_none aq eps { st with perm := q }
                  dx z hsel]
              exact ⟨rfl, rfl⟩
          | some i =>
              rw [subspace2D_branch3succ_eq_some aq eps st dx z i hsel,
                subspace2D_branch3succ_eq_some aq eps { st with perm := q }
                  dx z i hsel]
              exact ⟨rfl, rfl⟩

/-- C10: `subspace2D_step` never modifies any state field it reads --
`dx_gn`, `dx_sd`, `norm_gn`, `norm_sd`, `rank`, `W`, `tau`, `subg`,
`subB`, `trB`, `detB`, `normg`, `term0`, `term1` (and `p`) are unchanged,
only the permutation scratch `perm` may be overwritten; the status and
output vector do not depend on the incoming `perm`; hence repeating the
call on the state left by an earlier step call (any radius) yields the
same output vector as calling on the original state. -/
theorem subspace2D_step_frame {α : Type} [LinearOrderedField α]
    (ps : (Fin 5 → α) → PolyResult α)
    (aq : List (List α) → List α → List α → List α)
    (eps : α) (st : Subspace2DState α) (delta : α) (dx : List α) :
    ((subspace2D_step ps aq eps st delta dx).2.2.p = st.p ∧
     (subspace2D_step ps aq eps st delta dx).2.2.dx_gn = st.dx_gn ∧
     (subspace2D_step ps aq eps st delta dx).2.2.dx_sd = st.dx_sd ∧
     (subspace2D_step ps aq eps st delta dx).2.2.norm_gn = st.norm_gn ∧
     (subspace2D_step ps aq eps st delta dx).2.2.norm_sd = st.norm_sd ∧
     (subspace2D_step ps aq eps st delta dx).2.2.W = st.W ∧
     (subspace2D_step ps aq eps st delta dx).2.2.tau = st.tau ∧
     (subspace2D_step ps aq eps st delta dx).2.2.rank = st.rank ∧
     (subspace2D_step ps aq eps st delta dx).2.2.subg0 = st.subg0 ∧
     (subspace2D_step ps aq eps st delta dx).2.2.subg1 = st.subg1 ∧
     (subspace2D_step ps aq eps st delta dx).2.2.subB00 = st.subB00 ∧
     (subspace2D_step ps aq eps st delta dx).2.2.subB10 = st.subB10 ∧
     (subspace2D_step ps aq eps st delta dx).2.2.subB11 = st.subB11 ∧
     (subspace2D_step ps aq eps st delta dx).2.2.trB = st.trB ∧
     (subspace2D_step ps aq eps st delta dx).2.2.detB = st.detB ∧
     (subspace2D_step ps aq eps st delta dx).2.2.normg = st.normg ∧
     (subspace2D_step ps aq eps st delta dx).2.2.term0 = st.term0 ∧
     (subspace2D_step ps aq eps st delta dx).2.2.term1 = st.term1) ∧
    (∀ q : List Nat,
      (subspace2D_step ps aq eps { st with perm := q } delta dx).1 =
        (subspace2D_step ps aq eps st delta dx).1 ∧
      (subspace2D_step ps aq eps { st with perm := q } delta dx).2.1 =
        (subspace2D_step ps aq eps st delta dx).2.1) ∧
    (∀ (delta' : α) (dx' : List α),
      (subspace2D_step ps aq eps
        (subspace2D_step ps aq eps st delta' dx').2.2 delta dx).2.1 =
        (subspace2D_step ps aq eps st delta dx).2.1) := by
  refine ⟨?_, fun q => subspace2D_step_setPerm ps aq eps st delta dx q, ?_⟩
  · rw [subspace2D_step_state ps aq eps st delta dx]
    exact ⟨rfl, rfl, rfl, rfl, rfl, rfl, rfl, rfl, rfl, rfl, rfl, rfl,
      rfl, rfl, rfl, rfl, rfl, rfl⟩
  · intro delta' dx'
    rw [subspace2D_step_state ps aq eps st delta' dx']
    exact (subspace2D_step_setPerm ps aq eps st delta dx _).2

/-- A concrete populated full-rank state over ℚ used by the witnesses. -/
def testState : Subspace2DState ℚ :=
  { p := 2, dx_gn := [1, 2], dx_sd := [3, 4], norm_gn := 3, norm_sd := 5,
    W := [[1, 0], [0, 1]], tau := [0, 0], rank := 2,
    subg0 := 1, subg1 := 1, subB00 := 1, subB10 := 0, subB11 := 1,
    trB := 2, detB := 1, normg := 2, term0 := 2, term1 := 2,
    perm := [0, 1] }

/-- A concrete populated rank-1 state over ℚ. -/
def testState1 : Subspace2DState ℚ :=
  { testState with rank := 1, norm_gn := 7 }

/-- A concrete populated rank-1 state over ℝ, with
`norm_sd = ||dx_sd|| = ||[3,4]|| = 5`. -/
def testStateR : Subspace2DState ℝ :=
  { p := 2, dx_gn := [1, 2], dx_sd := [3, 4], norm_gn := 7, norm_sd := 5,
    W := [[1, 0], [0, 1]], tau := [0, 0], rank := 1,
    subg0 := 0, subg1 := 0, subB00 := 0, subB10 := 0, subB11 := 0,
    trB := 0, detB := 0, normg := 0, term0 := 0, term1 := 0,
    perm := [0, 1] }

/-- Root-finder stub that always fails with code 11 (`GSL_EFAILED`). -/
def polyFailQ : (Fin 5 → ℚ) → PolyResult ℚ := fun _ => PolyResult.failure 11

/-- Apply-Q stub: identity on the vector argument. -/
def applyQidQ : List (List ℚ) → List ℚ → List ℚ → List ℚ := fun _ _ v => v

/-- Real-valued root-finder stub that always fails with code 11. -/
def polyFailR : (Fin 5 → ℝ) → PolyResult ℝ := fun _ => PolyResult.failure 11

/-- Real-valued apply-Q stub: identity on the vector argument. -/
def applyQidR : List (List ℝ) → List ℝ → List ℝ → List ℝ := fun _ _ v => v

/-- Four concrete roots, the first two real. -/
def rootsQ : Fin 4 → ℚ × ℚ := fun i =>
  match i with
  | 0 => (0, 0)
  | 1 => (1, 0)
  | 2 => (5, 1)
  | 3 => (5, 1)

/-- Root-finder stub returning `rootsQ`. -/
def polyRootsQ : (Fin 5 → ℚ) → PolyResult ℚ :=
  fun _ => PolyResult.success rootsQ

/-- Four concrete roots, none of them real. -/
def rootsC : Fin 4 → ℚ × ℚ := fun i =>
  match i with
  | 0 => (0, 1)
  | 1 => (0, 1)
  | 2 => (0, -1)
  | 3 => (0, 2)

/-- Root-finder stub returning `rootsC`. -/
def polyRootsC : (Fin 5 → ℚ) → PolyResult ℚ :=
  fun _ => PolyResult.success rootsC

/-- Witness for C1 at a concrete input: `norm_gn = 3 <= 5` and the step is
exactly `dx_gn`, also at the larger radius 6. -/
theorem subspace2D_step_gauss_newton_feasible_witness :
    (0 : ℚ) < 5 ∧ testState.norm_gn ≤ 5 ∧
    subspace2D_step polyFailQ applyQidQ 1 testState 5 [9, 9] =
      (GSL_SUCCESS, testState.dx_gn, testState) ∧
    subspace2D_step polyFailQ applyQidQ 1 testState 6 [9, 9] =
      (GSL_SUCCESS, testState.dx_gn, testState) :=
  ⟨by decide, by decide,
   (subspace2D_step_gauss_newton_feasible polyFailQ applyQidQ 1 testState 5
     [9, 9] (by decide) (by decide)).1,
   (subspace2D_step_gauss_newton_feasible polyFailQ applyQidQ 1 testState 5
     [9, 9] (by decide) (by decide)).2 6 (by decide)⟩

/-- Witness for C2 at a concrete input over ℝ: `dx_sd = [3,4]`,
`norm_sd = 5 = ||dx_sd||`, radius 2, and the returned step has norm 2. -/
theorem subspace2D_step_rank_deficient_boundary_witness :
    (0 : ℝ) < 2 ∧ 2 < testStateR.norm_gn ∧ testStateR.rank < 2 ∧
    testStateR.norm_sd = enorm testStateR.dx_sd ∧ 0 < testStateR.norm_sd ∧
    subspace2D_step polyFailR applyQidR 1 testStateR 2 [] =
      (GSL_SUCCESS,
       testStateR.dx_sd.map (fun v => v * (2 / testStateR.norm_sd)),
       testStateR) ∧
    enorm ((subspace2D_step polyFailR applyQidR 1 testStateR 2 []).2.1) = 2 := by
  have hn : testStateR.norm_sd = enorm testStateR.dx_sd := by
    show (5 : ℝ) = enorm [3, 4]
    unfold enorm sumsq
    norm_num
    rw [show (25 : ℝ) = 5 ^ 2 by norm_num, Real.sqrt_sq (by norm_num : (0:ℝ) ≤ 5)]
  have h := subspace2D_step_rank_deficient_boundary polyFailR applyQidR 1
    testStateR 2 [] (by norm_num)
    (by show (2:ℝ) < 7; norm_num) (by show (1:Nat) < 2; norm_num) hn
    (by show (0:ℝ) < 5; norm_num)
  exact ⟨by norm_num, by show (2:ℝ) < 7; norm_num, by show (1:Nat) < 2; norm_num,
    hn, by show (0:ℝ) < 5; norm_num, h.1, h.2⟩

lemma subspace2D_select_testState :
    subspace2D_select testState 1 rootsQ = (some 0, -1) := by
  have hfin : (List.finRange 4 : List (Fin 4)) = [0, 1, 2, 3] := rfl
  unfold subspace2D_select
  rw [hfin]
  simp only [List.foldl_cons, List.foldl_nil]
  norm_num [selectF, subspace2D_objective, subspace2D_solutionX, rootsQ,
    testState]

/-- Witness for C4 at a concrete input: the quartic roots are `rootsQ`
(two real), the loop selects root 0, whose reduced objective (-1) is not
larger than root 1's (-3/4), and the step is the mapped-back winning
2-vector. -/
theorem subspace2D_step_root_selection_optimal_witness :
    (1 : ℚ) < testState.norm_gn ∧ testState.rank = 2 ∧
    (subspace2D_select testState 1 rootsQ).1 = some 0 ∧
    |(rootsQ 0).2| < (1 : ℚ) ∧ |(rootsQ 1).2| < (1 : ℚ) ∧
    subspace2D_objective testState
        (subspace2D_solutionX testState (rootsQ 0).1) ≤
      subspace2D_objective testState
        (subspace2D_solutionX testState (rootsQ 1).1) ∧
    subspace2D_step polyRootsQ applyQidQ 1 testState 1 [9, 9] =
      (GSL_SUCCESS,
       applyQidQ testState.W testState.tau
         (subspace2D_embed testState.p
           (subspace2D_solutionX testState (rootsQ 0).1)),
       { testState with
           perm := subspace2D_solutionPerm testState (rootsQ 0).1 }) := by
  have hi : (subspace2D_select testState 1 rootsQ).1 = some 0 := by
    rw [subspace2D_select_testState]
  have h := subspace2D_step_root_selection_optimal polyRootsQ applyQidQ 1
    testState 1 [9, 9] rootsQ 0 (by decide) (by decide) rfl hi
  exact ⟨by decide, by decide, hi, h.1, by decide, h.2.1 1 (by decide), h.2.2⟩

/-- Witness for C6 at a concrete input: all four roots `rootsC` are
non-real, the output vector `[9,9]` is returned untouched with
`GSL_SUCCESS` and the state is unchanged. -/
theorem subspace2D_step_no_real_root_diagnostic_witness :
    (1 : ℚ) < testState.norm_gn ∧ testState.rank = 2 ∧
    ¬ |(rootsC 0).2| < (1 : ℚ) ∧
    subspace2D_step polyRootsC applyQidQ 1 testState 1 [9, 9] =
      (GSL_SUCCESS, [9, 9], testState) :=
  ⟨by decide, by decide, by decide,
   subspace2D_step_no_real_root_diagnostic polyRootsC applyQidQ 1 testState
     1 [9, 9] rootsC (by decide) (by decide) rfl (by decide)⟩

/-- Witness for C8 at a concrete input: the root finder fails with code
11; the step call returns 11 and the output vector `[9,9]` untouched. -/
theorem subspace2D_step_polysolve_failure_propagates_witness :
    (1 : ℚ) < testState.norm_gn ∧ testState.rank = 2 ∧
    subspace2D_step polyFailQ applyQidQ 1 testState 1 [9, 9] =
      (11, [9, 9], testState) :=
  ⟨by decide, by decide,
   subspace2D_step_polysolve_failure_propagates polyFailQ applyQidQ 1
     testState 1 [9, 9] 11 (by decide) (by decide) rfl⟩

/-- Witness for C9 at a concrete input: rank-1 state with `norm_sd = 5`,
the guarded embedding does not hit the division-by-zero case. -/
theorem subspace2D_step_sd_division_safe_witness :
    (2 : ℚ) < testState1.norm_gn ∧ testState1.rank < 2 ∧
    (0 : ℚ) < testState1.norm_sd ∧
    subspace2D_step_checked polyFailQ applyQidQ 1 testState1 2 [] =
      some (subspace2D_step polyFailQ applyQidQ 1 testState1 2 []) :=
  ⟨by decide, by decide, by decide,
   (subspace2D_step_sd_division_safe polyFailQ applyQidQ 1 testState1 2 []
     (by decide) (by decide) (by decide)).1⟩
